import Mathlib

/-!
# The `custom-element` lifecycle hook of `mathjax3/customElement-MML/custom-element.js`

The source file defines one class, `CustomElement`, whose `connectedCallback`
captures the element's inner markup in a `<template>`, attaches an open shadow
root, appends a deep clone of the template content to it and hands the shadow
root to `MathJax.typesetShadow`.

The DOM is embedded as a node store (`Heap`) addressed by node identities, so
that "the same node" and "a copy of the node" are different things.  The HTML
parser, the HTML serialiser and the typesetting collaborator belong to the host
platform and to MathJax; they are parameters (`Env`).

The last line of the source registers the class under the name
`custom-element`.  When the handler appends the clone to the shadow root of a
connected element, the platform therefore upgrades every `custom-element` of
the clone and runs the same handler on it, before `appendChild` returns; those
nested runs are part of the embedding (`reactions`, `upgrade`, `callback`).
-/

namespace Dom

/-! ## Node store -/

/-- What a node is, apart from its children. -/
inductive NodeData where
  | element (tag : String) (attrs : List (String × String))
  | text (data : String)
  deriving DecidableEq, Repr

/-- One stored node: its data and the identities of its children, in order.
The identity of a node is its position in the node store. -/
structure NodeRec where
  data : NodeData
  children : List Nat
  deriving DecidableEq, Repr

/-- The node store.  Node `i` is the `i`-th entry; creating a node appends. -/
abbrev Heap := List NodeRec

/-- A node sequence seen as a value: `node d kids rest` is a first node with
data `d` and child sequence `kids`, followed by the siblings `rest`.  This is
the "same tag structure, attributes and text, in the same order" view of a
child list, with node identities forgotten. -/
inductive Forest where
  | nil
  | node (data : NodeData) (kids : Forest) (rest : Forest)
  deriving DecidableEq, Repr

/-- Number of nodes of a forest. -/
def Forest.size : Forest → Nat
  | .nil => 0
  | .node _ kids rest => 1 + kids.size + rest.size

/-- The node is an element with the name that the last line of the source,
`customElements.define('custom-element', CustomElement)`, registers. -/
def NodeData.isCustomElement : NodeData → Bool
  | .element tag _ => decide (tag = "custom-element")
  | .text _ => false

/-- No node of the forest is a `custom-element`. -/
def Forest.plain : Forest → Bool
  | .nil => true
  | .node d kids rest => !d.isCustomElement && kids.plain && rest.plain

/-- Create fresh nodes for a forest.  Children are created before their
parent, siblings left to right; the result is the grown store and the
identities of the top-level nodes. -/
def materialise : Forest → Heap → Heap × List Nat
  | .nil, h => (h, [])
  | .node d kids rest, h =>
    let hk := materialise kids h
    let id := hk.1.length
    let hr := materialise rest (hk.1 ++ [⟨d, hk.2⟩])
    (hr.1, id :: hr.2)

/-- Read the forest below a child list.  `fuel` bounds the number of nested
steps; `none` means a child identity names no stored node, or the fuel ran
out. -/
def readForest : Nat → Heap → List Nat → Option Forest
  | 0, _, _ => none
  | _ + 1, _, [] => some .nil
  | fuel + 1, h, i :: is =>
    match h[i]? with
    | none => none
    | some r =>
      match readForest fuel h r.children, readForest fuel h is with
      | some kids, some rest => some (.node r.data kids rest)
      | _, _ => none

/-- The forest below a child list, read with one unit of fuel more than there
are stored nodes: enough for every forest that `materialise` has put into the
store. -/
def snapshot (h : Heap) (ids : List Nat) : Option Forest :=
  readForest (h.length + 1) h ids

/-- Node `n` lies in the subtrees hanging from the child list `ids`. -/
inductive Reach (h : Heap) : List Nat → Nat → Prop where
  | here {ids : List Nat} {n : Nat} : n ∈ ids → Reach h ids n
  | inside {ids : List Nat} {m n : Nat} {r : NodeRec} :
      m ∈ ids → h[m]? = some r → Reach h r.children n → Reach h ids n

/-! ## The host element, its template and its shadow root -/

/-- The `mode` member of the dictionary given to `attachShadow`. -/
inductive ShadowRootMode where
  | modeOpen
  | modeClosed
  deriving DecidableEq, Repr

/-- A `ShadowRoot` object: its mode and its child list. -/
structure ShadowRoot where
  mode : ShadowRootMode
  children : List Nat
  deriving DecidableEq, Repr

/-- A `<template>` element, given by the child list of its `content`
fragment. -/
structure Template where
  content : List Nat
  deriving DecidableEq, Repr

/-- Failures a run of the handler can raise. -/
inductive Error where
  /-- The `NotSupportedError` of `attachShadow` on an element that is already a
  shadow host. -/
  | notSupportedError
  /-- The `TypeError` (or `ReferenceError`) of using something that is not
  there: a property of `undefined`, a call of something that is not a
  function, a global that is not declared. -/
  | typeError
  /-- A failure raised inside the typesetting collaborator. -/
  | collaborator (code : Nat)
  /-- The `RangeError` of a call stack that is exhausted. -/
  | rangeError
  deriving DecidableEq, Repr

/-- How a run of the handler ends.  `stuck` is not an outcome of the script: it
marks a store in which a child identity names no node, which no DOM is. -/
inductive Outcome where
  | returned
  | threw (e : Error)
  | stuck
  deriving DecidableEq, Repr

/-- One invocation of `MathJax.typesetShadow`: the argument it received (`none`
for `null`, otherwise the index of the shadow root among the roots of the
instance whose handler made the call) and the forest that shadow root held at
that moment. -/
structure Call where
  arg : Option Nat
  seen : Option Forest
  deriving DecidableEq, Repr

/-- The record of one nested run: a `custom-element` of a clone, upgraded and
connected by the platform while the clone was appended.  It keeps the node
that was upgraded and what the run left for that instance: its `template`
property, its shadow roots and slot, the invocations of
`MathJax.typesetShadow` its handler made, and how its run ended (a failure of
a nested run is reported by the platform, not raised to the run that appended
the clone). -/
structure NestedRun where
  node : Nat
  template : Option Template
  roots : List ShadowRoot
  shadow : Option Nat
  calls : List Call
  outcome : Outcome
  deriving DecidableEq, Repr

/-- Everything the handler can read or write for one element instance `this`:
the node store, the element's own (light-DOM) child list, the property
`this.template`, every shadow root ever created for the element (in creation
order), the element's shadow-root slot (an index into `roots`), the trace of
the invocations of `MathJax.typesetShadow` made by the handler of this
instance, and the nested runs that the appends of this instance's handler
have set off, in the order in which they ended. -/
structure State where
  heap : Heap
  light : List Nat
  template : Option Template
  roots : List ShadowRoot
  shadow : Option Nat
  calls : List Call
  nested : List NestedRun
  deriving DecidableEq, Repr

/-- The typesetting collaborator behind `MathJax.typesetShadow`.  Given a
shadow root it processes the subtree in place: `render` maps the forest it
finds to the forest it leaves and to the failure it raises, if any.  `onNull`
is what it raises when it is handed `null`. -/
structure Collaborator where
  render : Forest → Forest × Option Error
  onNull : Option Error

/-- What the host page supplies: the HTML serialiser behind the `innerHTML`
getter, the HTML fragment parser behind the `innerHTML` setter,
`MathJax.typesetShadow` (`none` when it is not available), and the number of
levels of nested handler runs its call stack has room for. -/
structure Env where
  serialize : Forest → String
  parse : String → Forest
  typesetShadow : Option Collaborator
  maxNesting : Nat

/-- What the platform does, before `appendChild` returns, with the nodes that
were inserted: the state after its custom-element reactions. -/
abbrev Reaction := State → List Nat → State

/-- The outcome of a call that raised `err`, or returned when `err` is
`none`. -/
def Outcome.ofRaised (err : Option Error) : Outcome :=
  match err with
  | none => .returned
  | some e => .threw e

/-- The getter `this.innerHTML`: the serialisation of the light-DOM children. -/
def innerHTML (env : Env) (s : State) : Option String :=
  (snapshot s.heap s.light).map env.serialize

/-- The call `document.createElement('template')`, the only use of
`createElement` in the source: a template with empty content. -/
def createElement : Template := ⟨[]⟩

/-- The setter `this.template.innerHTML = markup`: the markup is parsed and the
fresh nodes replace the children of the template's content.  On an undefined
`this.template` the assignment raises. -/
def setTemplateInnerHTML (env : Env) (s : State) (markup : String) : Except Error State :=
  match s.template with
  | none => .error .typeError
  | some _ =>
    let m := materialise (env.parse markup) s.heap
    .ok { s with heap := m.1, template := some ⟨m.2⟩ }

/-- The call `this.attachShadow({mode})`: raises on an element that already
has a shadow root, otherwise creates an empty shadow root, puts it in the
element's slot and returns it. -/
def attachShadow (mode : ShadowRootMode) (s : State) : Except Error (State × Nat) :=
  match s.shadow with
  | some _ => .error .notSupportedError
  | none =>
    .ok ({ s with roots := s.roots ++ [⟨mode, []⟩], shadow := some s.roots.length },
         s.roots.length)

/-- The call `fragment.cloneNode(true)` on a fragment with child list `ids`:
fresh nodes replicating the whole subtree; the result is the child list of the
new fragment. -/
def cloneNode (s : State) (ids : List Nat) : Option (State × List Nat) :=
  match snapshot s.heap ids with
  | none => none
  | some f =>
    let m := materialise f s.heap
    some ({ s with heap := m.1 }, m.2)

/-- The call `root.appendChild(fragment)`: the children of the fragment are
moved to the end of the child list of shadow root `rid`, and the platform
runs its custom-element reactions for the inserted nodes before the call
returns. -/
def appendChild (react : Reaction) (s : State) (rid : Nat) (frag : List Nat) : State :=
  match s.roots[rid]? with
  | none => s
  | some root =>
    react { s with roots := s.roots.set rid { root with children := root.children ++ frag } }
      frag

/-- The getter `this.shadowRoot`: the shadow root in the element's slot when
its mode is open, `null` otherwise. -/
def shadowRoot (s : State) : Option Nat :=
  match s.shadow with
  | none => none
  | some rid =>
    match s.roots[rid]? with
    | none => none
    | some root => if root.mode = .modeOpen then some rid else none

/-- The call `MathJax.typesetShadow(arg)`.  When the entry point is missing the
call raises and nothing is invoked.  Otherwise the invocation is recorded with
what it found, the collaborator rewrites the children of the shadow root it
was given, and its failure, if any, is the failure of the call. -/
def typesetShadow (env : Env) (s : State) (arg : Option Nat) : State × Outcome :=
  match env.typesetShadow with
  | none => (s, .threw .typeError)
  | some c =>
    match arg with
    | none => ({ s with calls := s.calls ++ [⟨none, none⟩] }, Outcome.ofRaised c.onNull)
    | some rid =>
      match s.roots[rid]? with
      | none => (s, .stuck)
      | some root =>
        match snapshot s.heap root.children with
        | none => (s, .stuck)
        | some seen =>
          let out := c.render seen
          let m := materialise out.1 s.heap
          ({ s with heap := m.1,
                    roots := s.roots.set rid { root with children := m.2 },
                    calls := s.calls ++ [⟨some rid, some seen⟩] },
           Outcome.ofRaised out.2)

/-- The forest held by the shadow root in the element's slot, if there is
one. -/
def shadowContent (s : State) : Option Forest :=
  match s.shadow with
  | none => none
  | some rid =>
    match s.roots[rid]? with
    | none => none
    | some root => snapshot s.heap root.children

/-- The forest held by the content of `this.template`, if it is defined. -/
def templateContent (s : State) : Option Forest :=
  match s.template with
  | none => none
  | some t => snapshot s.heap t.content

/-- The child list of the shadow root in the element's slot (empty when there
is none). -/
def shadowChildren (s : State) : List Nat :=
  match s.shadow with
  | none => []
  | some rid =>
    match s.roots[rid]? with
    | none => []
    | some root => root.children

/-- The child list of the content of `this.template` (empty when it is
undefined). -/
def templateChildren (s : State) : List Nat :=
  match s.template with
  | none => []
  | some t => t.content

end Dom

/-! ## The class `CustomElement` -/

namespace CustomElement

open Dom

/-- The constructor: `super()` and nothing else.  The platform supplies the
node store, the child list the element has when it is created and the trace so
far; the new instance has no `template` property and no shadow root, and has
set off no nested run. -/
def constructor (h : Heap) (light : List Nat) (calls : List Call) : State :=
  { heap := h, light := light, template := none, roots := [], shadow := none, calls := calls,
    nested := [] }

/-- The statements of `connectedCallback`, one by one, given the reactions of
the platform to the insertion of line 9.  The result is the state the run
leaves behind and how the run ended. -/
def handler (react : Reaction) (env : Env) (s : State) : State × Outcome :=
  -- this.template = document.createElement('template');
  let s1 := { s with template := some createElement }
  -- this.template.innerHTML = this.innerHTML;
  match innerHTML env s1 with
  | none => (s1, .stuck)
  | some markup =>
    match setTemplateInnerHTML env s1 markup with
    | .error e => (s1, .threw e)
    | .ok s2 =>
      -- this.attachShadow({mode: "open"})
      match attachShadow .modeOpen s2 with
      | .error e => (s2, .threw e)
      | .ok (s3, root) =>
        -- this.template.content.cloneNode(true)
        match s3.template with
        | none => (s3, .threw .typeError)
        | some t =>
          match cloneNode s3 t.content with
          | none => (s3, .stuck)
          | some (s4, frag) =>
            -- .appendChild(...)
            let s5 := appendChild react s4 root frag
            -- MathJax.typesetShadow(this.shadowRoot);
            typesetShadow env s5 (shadowRoot s5)

/-- The upgrade of one `custom-element` of an inserted clone, stored at `node`
with child list `kids`: the platform constructs the instance and, the node
being connected, runs its handler (`run`).  The store the nested run leaves
is the store from then on; the nested runs it set off itself and its own
record are added to the records. -/
def upgrade (run : State → State × Outcome) (s : State) (node : Nat) (kids : List Nat) :
    State :=
  let t := run (constructor s.heap kids [])
  { s with heap := t.1.heap,
           nested := s.nested ++ t.1.nested
             ++ [⟨node, t.1.template, t.1.roots, t.1.shadow, t.1.calls, t.2⟩] }

/-- The custom-element reactions for inserted nodes `ids`, in tree order: a
node that is a `custom-element` is upgraded, then its children are visited,
then its later siblings.  `fuel` bounds the number of nested steps of the
walk. -/
def reactions (run : State → State × Outcome) : Nat → State → List Nat → State
  | 0, s, _ => s
  | _ + 1, s, [] => s
  | fuel + 1, s, i :: is =>
    match s.heap[i]? with
    | none => s
    | some r =>
      let s1 := if r.data.isCustomElement then upgrade run s i r.children else s
      reactions run fuel (reactions run fuel s1 r.children) is

/-- The handler as the platform runs it on a nested instance when `depth`
levels of the call stack are left: with none left the run raises, otherwise
the statements run, and the instances nested in its own clone run with one
level less. -/
def callback : Nat → Env → State → State × Outcome
  | 0, _, s => (s, .threw .rangeError)
  | depth + 1, env, s =>
    handler (fun t ids => reactions (callback depth env) (t.heap.length + 1) t ids) env s

/-- The handler `connectedCallback` on the element `this`: the statements of
the source, with the reactions of the platform to line 9. -/
def connectedCallback (env : Env) (s : State) : State × Outcome :=
  handler (fun t ids => reactions (callback env.maxNesting env) (t.heap.length + 1) t ids)
    env s

/-- Every invocation of `MathJax.typesetShadow` so far that goes back to this
instance: those of its own handler and those of the nested runs its appends
set off. -/
def invocations (s : State) : Nat :=
  s.calls.length + (s.nested.map (fun r => r.calls.length)).sum

end CustomElement

/-! ## Specification vocabulary -/

namespace Dom

/-- The identities `lo ≤ i < hi` form a region of the store that is closed
under taking children. -/
def Closed (lo hi : Nat) (h : Heap) : Prop :=
  ∀ i r, lo ≤ i → i < hi → h[i]? = some r → ∀ c ∈ r.children, lo ≤ c ∧ c < hi

/-- Every identity of the list lies in `lo ≤ i < hi`. -/
def Within (lo hi : Nat) (ids : List Nat) : Prop :=
  ∀ i ∈ ids, lo ≤ i ∧ i < hi

/-- State `t` is state `s` after custom-element reactions: the store has
grown, nested runs have been recorded, each with at most one invocation of
`MathJax.typesetShadow`, and nothing else differs. -/
def Grew (s t : State) : Prop :=
  t.light = s.light ∧ t.template = s.template ∧ t.roots = s.roots ∧ t.shadow = s.shadow ∧
  t.calls = s.calls ∧ (∃ ext, t.heap = s.heap ++ ext) ∧
  ∃ nst, t.nested = s.nested ++ nst ∧ ∀ r ∈ nst, r.calls.length ≤ 1

/-- A run only lets the store grow, only adds nested runs, each with at most
one invocation of `MathJax.typesetShadow`, and adds at most one invocation of
its own. -/
def Sound (run : State → State × Outcome) : Prop :=
  ∀ t, (∃ ext, (run t).1.heap = t.heap ++ ext) ∧
    (∃ nst, (run t).1.nested = t.nested ++ nst ∧ ∀ r ∈ nst, r.calls.length ≤ 1) ∧
    (run t).1.calls.length ≤ t.calls.length + 1

/-- A primitive change of the node store: overwrite the node stored at `n`
(its data, its child list, or both), or create a node. -/
inductive Edit where
  | write (n : Nat) (r : NodeRec)
  | create (r : NodeRec)
  deriving DecidableEq, Repr

/-- The store after one primitive change. -/
def Edit.apply (e : Edit) (h : Heap) : Heap :=
  match e with
  | .write n r => h.set n r
  | .create r => h ++ [r]

/-- The store after a sequence of primitive changes, first to last. -/
def applyEdits (es : List Edit) (h : Heap) : Heap :=
  es.foldl (fun g e => e.apply g) h

/-- The changes `es`, made to store `h`, stay inside the subtrees hanging from
`ids`: every overwritten node is a node of those subtrees as they are in `h`,
or a node that did not exist in `h`. -/
def EditsOf (h : Heap) (ids : List Nat) (es : List Edit) : Prop :=
  ∀ e ∈ es, ∀ n r, e = .write n r → Reach h ids n ∨ h.length ≤ n

/-- A change of the element's light DOM: primitive changes of the store and a
new child list for the element. -/
def State.editLight (es : List Edit) (ids : List Nat) (s : State) : State :=
  { s with heap := applyEdits es s.heap, light := ids }

/-- A change of the shadow tree: primitive changes of the store and a new
child list for the shadow root in the element's slot. -/
def State.editShadow (es : List Edit) (ids : List Nat) (s : State) : State :=
  match s.shadow with
  | none => { s with heap := applyEdits es s.heap }
  | some rid =>
    match s.roots[rid]? with
    | none => { s with heap := applyEdits es s.heap }
    | some root =>
      { s with heap := applyEdits es s.heap,
               roots := s.roots.set rid { root with children := ids } }

/-- A change of the retained template content: primitive changes of the store
and a new child list for the content of `this.template`. -/
def State.editTemplate (es : List Edit) (ids : List Nat) (s : State) : State :=
  match s.template with
  | none => { s with heap := applyEdits es s.heap }
  | some _ => { s with heap := applyEdits es s.heap, template := some ⟨ids⟩ }

end Dom

namespace CustomElement

open Dom

/-- The states one element instance goes through: it is constructed, and then
the handler runs any number of times, in any environment, with any changes of
the node store and of the element's child list in between. -/
inductive Reachable : State → Prop where
  | constructed (h : Heap) (light : List Nat) (calls : List Call) :
      Reachable (constructor h light calls)
  | connected (env : Env) {s : State} :
      Reachable s → Reachable (connectedCallback env s).1
  | edited (es : List Edit) (ids : List Nat) {s : State} :
      Reachable s → Reachable (s.editLight es ids)

end CustomElement

/-! ## A concrete page -/

namespace Demo

open Dom

/-- Serialisation of a forest as markup: tags and text, no escaping. -/
def serialize : Forest → String
  | .nil => ""
  | .node (.text d) _ rest => d ++ serialize rest
  | .node (.element tag _) kids rest =>
    "<" ++ tag ++ ">" ++ serialize kids ++ "</" ++ tag ++ ">" ++ serialize rest

/-- A parser that does what the HTML fragment parser does on the markup used
below: the empty string has no nodes, `<p>x</p>` is a paragraph holding a text
node, `<custom-element><p>x</p></custom-element>` is a `custom-element`
holding that paragraph, anything else is taken as one text node. -/
def parse (markup : String) : Forest :=
  if markup = "" then .nil
  else if markup = "<p>x</p>" then
    .node (.element "p" []) (.node (.text "x") .nil .nil) .nil
  else if markup = "<custom-element><p>x</p></custom-element>" then
    .node (.element "custom-element" [])
      (.node (.element "p" []) (.node (.text "x") .nil .nil) .nil) .nil
  else .node (.text markup) .nil .nil

/-- A typesetter: every text node is replaced by an `mjx-container` element
holding it. -/
def typeset : Forest → Forest
  | .nil => .nil
  | .node (.text d) _ rest =>
    .node (.element "mjx-container" []) (.node (.text d) .nil .nil) (typeset rest)
  | .node (.element tag attrs) kids rest =>
    .node (.element tag attrs) (typeset kids) (typeset rest)

/-- A collaborator that typesets and returns. -/
def rendering : Collaborator := ⟨fun f => (typeset f, none), none⟩

/-- A collaborator that empties the subtree and then raises. -/
def failing : Collaborator := ⟨fun _ => (.nil, some (.collaborator 1)), none⟩

/-- The page with a working typesetter. -/
def env : Env := ⟨serialize, parse, some rendering, 8⟩

/-- The page whose typesetter raises after it started its work. -/
def envFailing : Env := ⟨serialize, parse, some failing, 8⟩

/-- The page on which `MathJax.typesetShadow` is missing. -/
def envMissing : Env := ⟨serialize, parse, none, 8⟩

/-- The store of a page holding `<custom-element><p>x</p></custom-element>`:
node 0 is the text, node 1 the paragraph. -/
def heap : Heap := [⟨.text "x", []⟩, ⟨.element "p" [], [0]⟩]

/-- The element right after construction, with `<p>x</p>` inside. -/
def fresh : State := CustomElement.constructor heap [1] []

/-- The element `<custom-element></custom-element>` right after construction. -/
def empty : State := CustomElement.constructor [] [] []

/-- The store of a page holding
`<custom-element><custom-element><p>x</p></custom-element></custom-element>`:
node 2 is the inner `custom-element`. -/
def heapNesting : Heap :=
  [⟨.text "x", []⟩, ⟨.element "p" [], [0]⟩, ⟨.element "custom-element" [], [1]⟩]

/-- The outer element of that page right after construction. -/
def nesting : State := CustomElement.constructor heapNesting [2] []

/-- The element after its first connection on the page `env`. -/
def connected : State := (CustomElement.connectedCallback env fresh).1

end Demo


/-! ## Facts about the node store -/

namespace Dom

theorem materialise_grows (f : Forest) (h : Heap) :
    ∃ ext, (materialise f h).1 = h ++ ext ∧ ext.length = f.size := by
  induction f generalizing h with
  | nil => exact ⟨[], by simp [materialise], rfl⟩
  | node d kids rest ihk ihr =>
    obtain ⟨e1, h1, l1⟩ := ihk h
    obtain ⟨e2, h2, l2⟩ := ihr ((materialise kids h).1 ++ [⟨d, (materialise kids h).2⟩])
    refine ⟨e1 ++ [⟨d, (materialise kids h).2⟩] ++ e2, ?_, ?_⟩
    · simp only [materialise]
      rw [h2, h1]
      simp
    · simp [Forest.size, l1, l2]; omega

theorem materialise_length (f : Forest) (h : Heap) :
    (materialise f h).1.length = h.length + f.size := by
  obtain ⟨e, he, hl⟩ := materialise_grows f h
  rw [he, List.length_append, hl]

theorem materialise_within (f : Forest) (h : Heap) :
    Within h.length (materialise f h).1.length (materialise f h).2 := by
  induction f generalizing h with
  | nil => intro i hi; simp [materialise] at hi
  | node d kids rest ihk ihr =>
    intro i hi
    simp only [materialise, List.mem_cons] at hi
    have lk := materialise_length kids h
    have lr := materialise_length rest ((materialise kids h).1 ++ [⟨d, (materialise kids h).2⟩])
    simp only [List.length_append, List.length_singleton] at lr
    simp only [materialise]
    rcases hi with hi | hi
    · subst hi; omega
    · have := ihr _ i hi
      simp only [List.length_append, List.length_singleton] at this
      omega

theorem readForest_fuel_mono {k : Nat} {h : Heap} {ids : List Nat} {f : Forest}
    (hr : readForest k h ids = some f) {k2 : Nat} (hk : k ≤ k2) :
    readForest k2 h ids = some f := by
  induction k generalizing ids f k2 with
  | zero => simp [readForest] at hr
  | succ k ih =>
    obtain ⟨j, rfl⟩ : ∃ j, k2 = j + 1 := ⟨k2 - 1, by omega⟩
    cases ids with
    | nil => simpa [readForest] using hr
    | cons i is =>
      simp only [readForest] at hr ⊢
      cases hi : h[i]? with
      | none => simp [hi] at hr
      | some r =>
        simp only [hi] at hr ⊢
        cases hkids : readForest k h r.children with
        | none => simp [hkids] at hr
        | some kids =>
          cases hrest : readForest k h is with
          | none => simp [hkids, hrest] at hr
          | some rest =>
            simp only [hkids, hrest] at hr
            rw [ih hkids (by omega), ih hrest (by omega)]
            exact hr

theorem readForest_append {k : Nat} {h : Heap} {ids : List Nat} {f : Forest}
    (hr : readForest k h ids = some f) (ext : Heap) :
    readForest k (h ++ ext) ids = some f := by
  induction k generalizing ids f with
  | zero => simp [readForest] at hr
  | succ k ih =>
    cases ids with
    | nil => simpa [readForest] using hr
    | cons i is =>
      simp only [readForest] at hr ⊢
      cases hi : h[i]? with
      | none => simp [hi] at hr
      | some r =>
        have hlt : i < h.length := by
          by_contra hc
          rw [List.getElem?_eq_none (by omega)] at hi
          cases hi
        rw [List.getElem?_append_left hlt, hi]
        simp only [hi] at hr
        cases hkids : readForest k h r.children with
        | none => simp [hkids] at hr
        | some kids =>
          cases hrest : readForest k h is with
          | none => simp [hkids, hrest] at hr
          | some rest =>
            simp only [hkids, hrest] at hr
            simp only [ih hkids, ih hrest]
            exact hr

theorem readForest_materialise (f : Forest) (h : Heap) (k : Nat) (hk : f.size < k) :
    readForest k (materialise f h).1 (materialise f h).2 = some f := by
  induction f generalizing h k with
  | nil =>
    obtain ⟨j, rfl⟩ : ∃ j, k = j + 1 := ⟨k - 1, by omega⟩
    simp [materialise, readForest]
  | node d kids rest ihk ihr =>
    obtain ⟨j, rfl⟩ : ∃ j, k = j + 1 := ⟨k - 1, by omega⟩
    simp only [Forest.size] at hk
    obtain ⟨e2, h2, -⟩ :=
      materialise_grows rest ((materialise kids h).1 ++ [⟨d, (materialise kids h).2⟩])
    have hkids := ihk h j (by omega)
    have hrest := ihr ((materialise kids h).1 ++ [⟨d, (materialise kids h).2⟩]) j (by omega)
    have hkids2 : readForest j
        (materialise rest ((materialise kids h).1 ++ [⟨d, (materialise kids h).2⟩])).1
        (materialise kids h).2 = some kids := by
      rw [h2]
      exact readForest_append (readForest_append hkids _) _
    have hnode : (materialise rest
        ((materialise kids h).1 ++ [⟨d, (materialise kids h).2⟩])).1[(materialise kids h).1.length]?
          = some ⟨d, (materialise kids h).2⟩ := by
      rw [h2, List.getElem?_append_left (by simp)]
      simp
    simp only [materialise, readForest, hnode, hkids2, hrest]

theorem getElem?_some_lt {h : Heap} {i : Nat} {r : NodeRec} (hi : h[i]? = some r) :
    i < h.length := by
  by_contra hc
  rw [List.getElem?_eq_none (by omega)] at hi
  cases hi

theorem materialise_lookup (f : Forest) (h : Heap) (i : Nat) (hi : i < h.length) :
    (materialise f h).1[i]? = h[i]? := by
  obtain ⟨e, he, -⟩ := materialise_grows f h
  rw [he, List.getElem?_append_left hi]

theorem materialise_closed (f : Forest) (h : Heap) :
    Closed h.length (materialise f h).1.length (materialise f h).1 := by
  induction f generalizing h with
  | nil =>
    intro i r h1 h2
    simp only [materialise] at h2
    omega
  | node d kids rest ihk ihr =>
    intro i r h1 h2 hi c hc
    have lk := materialise_length kids h
    have lr := materialise_length rest ((materialise kids h).1 ++ [⟨d, (materialise kids h).2⟩])
    simp only [List.length_append, List.length_singleton] at lr
    simp only [materialise] at h2 hi ⊢
    rcases Nat.lt_trichotomy i (materialise kids h).1.length with hlt | heq | hgt
    · rw [materialise_lookup rest _ i (by simp; omega),
        List.getElem?_append_left hlt] at hi
      have := ihk h i r h1 hlt hi c hc
      omega
    · subst heq
      rw [materialise_lookup rest _ _ (by simp)] at hi
      simp at hi
      subst hi
      have := materialise_within kids h c hc
      omega
    · have := ihr _ i r (by simp; omega) h2 hi c hc
      simp only [List.length_append, List.length_singleton] at this
      omega

theorem reach_within {lo hi : Nat} {h : Heap} (hc : Closed lo hi h) {ids : List Nat} {n : Nat}
    (hr : Reach h ids n) (hw : Within lo hi ids) : lo ≤ n ∧ n < hi := by
  induction hr with
  | here hm => exact hw _ hm
  | inside hm hl _ ih =>
    have := hw _ hm
    exact ih (hc _ _ this.1 this.2 hl)

theorem readForest_mem {k : Nat} {h : Heap} {ids : List Nat} {f : Forest}
    (hr : readForest k h ids = some f) {m : Nat} (hm : m ∈ ids) :
    ∃ r, h[m]? = some r ∧ ∃ j g, readForest j h r.children = some g := by
  induction k generalizing ids f with
  | zero => simp [readForest] at hr
  | succ k ih =>
    cases ids with
    | nil => cases hm
    | cons i is =>
      simp only [readForest] at hr
      cases hi : h[i]? with
      | none => simp [hi] at hr
      | some r =>
        simp only [hi] at hr
        cases hkids : readForest k h r.children with
        | none => simp [hkids] at hr
        | some kids =>
          cases hrest : readForest k h is with
          | none => simp [hkids, hrest] at hr
          | some rest =>
            rcases List.mem_cons.1 hm with rfl | hm2
            · exact ⟨r, hi, k, kids, hkids⟩
            · exact ih hrest hm2

theorem reach_lt_of_read {h ext : Heap} {ids : List Nat} {n : Nat}
    (hr : Reach (h ++ ext) ids n) {k : Nat} {f : Forest}
    (hf : readForest k h ids = some f) : n < h.length := by
  induction hr generalizing k f with
  | here hm =>
    obtain ⟨r, hl, -⟩ := readForest_mem hf hm
    exact getElem?_some_lt hl
  | inside hm hl _ ih =>
    obtain ⟨r, hl2, j, g, hg⟩ := readForest_mem hf hm
    rw [List.getElem?_append_left (getElem?_some_lt hl2), hl2] at hl
    cases hl
    exact ih hg

theorem snapshot_append {h : Heap} {ids : List Nat} {f : Forest}
    (hs : snapshot h ids = some f) (ext : Heap) : snapshot (h ++ ext) ids = some f := by
  unfold snapshot at hs ⊢
  exact readForest_fuel_mono (readForest_append hs ext) (by simp)

theorem snapshot_materialise_old {h : Heap} {ids : List Nat} {f : Forest}
    (hs : snapshot h ids = some f) (g : Forest) :
    snapshot (materialise g h).1 ids = some f := by
  obtain ⟨e, he, -⟩ := materialise_grows g h
  rw [he]
  exact snapshot_append hs e

theorem snapshot_materialise (f : Forest) (h : Heap) :
    snapshot (materialise f h).1 (materialise f h).2 = some f := by
  unfold snapshot
  exact readForest_materialise f h _ (by rw [materialise_length]; omega)

end Dom

namespace Dom

theorem reach_of_subset {h : Heap} {ids ids2 : List Nat} {n : Nat} (hr : Reach h ids n)
    (hs : ∀ i ∈ ids, i ∈ ids2) : Reach h ids2 n := by
  cases hr with
  | here hm => exact Reach.here (hs _ hm)
  | inside hm hl hc => exact Reach.inside (hs _ hm) hl hc

theorem readForest_congr_reach {h h2 : Heap} (k : Nat) (ids : List Nat)
    (hag : ∀ n, Reach h ids n → h2[n]? = h[n]?) :
    readForest k h2 ids = readForest k h ids := by
  induction k generalizing ids with
  | zero => simp [readForest]
  | succ k ih =>
    cases ids with
    | nil => simp [readForest]
    | cons i is =>
      simp only [readForest]
      rw [hag i (Reach.here (List.mem_cons_self _ _))]
      cases hr : h[i]? with
      | none => rfl
      | some r =>
        simp only []
        rw [ih r.children (fun n hn => hag n (Reach.inside (List.mem_cons_self _ _) hr hn)),
          ih is (fun n hn => hag n (reach_of_subset hn (fun j hj => List.mem_cons_of_mem _ hj)))]

theorem reach_lt_of_snapshot {h : Heap} {ids : List Nat} {f : Forest} {n : Nat}
    (hs : snapshot h ids = some f) (hr : Reach h ids n) : n < h.length := by
  have hr2 : Reach (h ++ []) ids n := by simpa using hr
  exact reach_lt_of_read hr2 hs

theorem applyEdits_frame {h0 : Heap} {ids : List Nat} {f : Forest}
    (hs : snapshot h0 ids = some f) (es : List Edit)
    (hsp : ∀ e ∈ es, ∀ n r, e = .write n r → ¬ Reach h0 ids n) (h : Heap)
    (hlen : h0.length ≤ h.length) (hag : ∀ n, Reach h0 ids n → h[n]? = h0[n]?) :
    h0.length ≤ (applyEdits es h).length ∧
      ∀ n, Reach h0 ids n → (applyEdits es h)[n]? = h0[n]? := by
  induction es generalizing h with
  | nil => exact ⟨hlen, hag⟩
  | cons e es ih =>
    have hrest : ∀ e2 ∈ es, ∀ n r, e2 = .write n r → ¬ Reach h0 ids n :=
      fun e2 he2 => hsp e2 (List.mem_cons_of_mem _ he2)
    simp only [applyEdits, List.foldl_cons]
    cases e with
    | write m r =>
      refine ih hrest (h.set m r) (by simpa [Edit.apply] using hlen) ?_
      intro n hn
      have hne : m ≠ n := by
        rintro rfl
        exact hsp _ (List.mem_cons_self _ _) m r rfl hn
      show (h.set m r)[n]? = h0[n]?
      rw [List.getElem?_set_ne hne]
      exact hag n hn
    | create r =>
      refine ih hrest (h ++ [r]) (by simp [Edit.apply]; omega) ?_
      intro n hn
      have hlt := reach_lt_of_snapshot hs hn
      show (h ++ [r])[n]? = h0[n]?
      rw [List.getElem?_append_left (by omega)]
      exact hag n hn

theorem snapshot_applyEdits {h0 : Heap} {ids : List Nat} {f : Forest}
    (hs : snapshot h0 ids = some f) (es : List Edit)
    (hsp : ∀ e ∈ es, ∀ n r, e = .write n r → ¬ Reach h0 ids n) :
    snapshot (applyEdits es h0) ids = some f := by
  obtain ⟨hlen, hag⟩ := applyEdits_frame hs es hsp h0 (le_refl _) (fun _ _ => rfl)
  unfold snapshot at hs ⊢
  rw [readForest_congr_reach _ ids hag]
  exact readForest_fuel_mono hs (by omega)

theorem innerHTML_some {env : Env} {s : State} {markup : String}
    (hm : innerHTML env s = some markup) :
    ∃ L, snapshot s.heap s.light = some L ∧ markup = env.serialize L := by
  unfold innerHTML at hm
  cases hl : snapshot s.heap s.light with
  | none => simp [hl] at hm
  | some L =>
    simp only [hl, Option.map_some', Option.some.injEq] at hm
    exact ⟨L, rfl, hm.symm⟩

end Dom

/-! ## What one run of the handler does -/

namespace CustomElement

open Dom

theorem set_last {α : Type} (l : List α) (a b : α) : (l ++ [a]).set l.length b = l ++ [b] := by
  induction l with
  | nil => rfl
  | cons x xs ih => simp [List.set, ih]

theorem grew_refl (s : State) : Grew s s :=
  ⟨rfl, rfl, rfl, rfl, rfl, ⟨[], by simp⟩, ⟨[], by simp, fun r hr => by cases hr⟩⟩

theorem grew_trans {s t u : State} (h1 : Grew s t) (h2 : Grew t u) : Grew s u := by
  obtain ⟨a1, a2, a3, a4, a5, ⟨e1, a6⟩, ⟨n1, a7, a8⟩⟩ := h1
  obtain ⟨b1, b2, b3, b4, b5, ⟨e2, b6⟩, ⟨n2, b7, b8⟩⟩ := h2
  refine ⟨b1.trans a1, b2.trans a2, b3.trans a3, b4.trans a4, b5.trans a5,
    ⟨e1 ++ e2, by rw [b6, a6, List.append_assoc]⟩,
    ⟨n1 ++ n2, by rw [b7, a7, List.append_assoc], ?_⟩⟩
  intro r hr
  rcases List.mem_append.1 hr with h | h
  · exact a8 r h
  · exact b8 r h

theorem upgrade_grew {run : State → State × Outcome} (hrun : Sound run) (s : State)
    (node : Nat) (kids : List Nat) : Grew s (upgrade run s node kids) := by
  obtain ⟨⟨ext, he⟩, ⟨nst, hn, hb⟩, hc⟩ := hrun (constructor s.heap kids [])
  refine ⟨rfl, rfl, rfl, rfl, rfl, ⟨ext, he⟩, ⟨_, List.append_assoc _ _ _, ?_⟩⟩
  intro r hr
  rcases List.mem_append.1 hr with h | h
  · rw [hn] at h
    exact hb r (by simpa [constructor] using h)
  · rw [List.mem_singleton.1 h]
    simpa [constructor] using hc

theorem reactions_grew {run : State → State × Outcome} (hrun : Sound run) (k : Nat)
    (s : State) (ids : List Nat) : Grew s (reactions run k s ids) := by
  induction k generalizing s ids with
  | zero => exact grew_refl s
  | succ k ih =>
    cases ids with
    | nil => exact grew_refl s
    | cons i is =>
      simp only [reactions]
      cases hi : s.heap[i]? with
      | none => exact grew_refl s
      | some r =>
        simp only []
        refine grew_trans (grew_trans ?_ (ih _ _)) (ih _ _)
        by_cases hc : r.data.isCustomElement = true
        · rw [if_pos hc]
          exact upgrade_grew hrun s i r.children
        · rw [if_neg hc]
          exact grew_refl s

theorem handler_unreadable (react : Reaction) (env : Env) (s : State)
    (hl : snapshot s.heap s.light = none) :
    handler react env s = ({ s with template := some createElement }, .stuck) := by
  simp only [handler, innerHTML, hl, Option.map_none']

theorem handler_again (react : Reaction) (env : Env) (s : State) (L : Forest) (rid : Nat)
    (hsh : s.shadow = some rid) (hl : snapshot s.heap s.light = some L) :
    handler react env s =
      ({ s with heap := (materialise (env.parse (env.serialize L)) s.heap).1,
                template := some ⟨(materialise (env.parse (env.serialize L)) s.heap).2⟩ },
       .threw .notSupportedError) := by
  simp only [handler, innerHTML, hl, Option.map_some', setTemplateInnerHTML,
    attachShadow, hsh]

theorem handler_first_eq (react : Reaction) (env : Env) (s : State) (L : Forest)
    (hsh : s.shadow = none) (hl : snapshot s.heap s.light = some L) :
    handler react env s =
      typesetShadow env
        (react
          { heap := (materialise (env.parse (env.serialize L))
                      (materialise (env.parse (env.serialize L)) s.heap).1).1,
            light := s.light,
            template := some ⟨(materialise (env.parse (env.serialize L)) s.heap).2⟩,
            roots := s.roots ++ [⟨.modeOpen, (materialise (env.parse (env.serialize L))
                      (materialise (env.parse (env.serialize L)) s.heap).1).2⟩],
            shadow := some s.roots.length,
            calls := s.calls,
            nested := s.nested }
          (materialise (env.parse (env.serialize L))
            (materialise (env.parse (env.serialize L)) s.heap).1).2)
        (shadowRoot
          (react
            { heap := (materialise (env.parse (env.serialize L))
                        (materialise (env.parse (env.serialize L)) s.heap).1).1,
              light := s.light,
              template := some ⟨(materialise (env.parse (env.serialize L)) s.heap).2⟩,
              roots := s.roots ++ [⟨.modeOpen, (materialise (env.parse (env.serialize L))
                        (materialise (env.parse (env.serialize L)) s.heap).1).2⟩],
              shadow := some s.roots.length,
              calls := s.calls,
              nested := s.nested }
            (materialise (env.parse (env.serialize L))
              (materialise (env.parse (env.serialize L)) s.heap).1).2)) := by
  simp only [handler, innerHTML, hl, Option.map_some', setTemplateInnerHTML,
    attachShadow, hsh, cloneNode, snapshot_materialise, appendChild, List.getElem?_concat_length,
    List.nil_append, set_last]

theorem handler_first (react : Reaction) (hreact : ∀ t ids, Grew t (react t ids))
    (env : Env) (s : State) (L : Forest)
    (hsh : s.shadow = none) (hl : snapshot s.heap s.light = some L) :
    ∃ ext nst, (∀ r ∈ nst, r.calls.length ≤ 1) ∧
    handler react env s =
      match env.typesetShadow with
      | none =>
        ({ heap := (materialise (env.parse (env.serialize L))
                      (materialise (env.parse (env.serialize L)) s.heap).1).1 ++ ext,
           light := s.light,
           template := some ⟨(materialise (env.parse (env.serialize L)) s.heap).2⟩,
           roots := s.roots ++ [⟨.modeOpen, (materialise (env.parse (env.serialize L))
                      (materialise (env.parse (env.serialize L)) s.heap).1).2⟩],
           shadow := some s.roots.length,
           calls := s.calls,
           nested := s.nested ++ nst }, .threw .typeError)
      | some c =>
        ({ heap := (materialise (c.render (env.parse (env.serialize L))).1
                      ((materialise (env.parse (env.serialize L))
                        (materialise (env.parse (env.serialize L)) s.heap).1).1 ++ ext)).1,
           light := s.light,
           template := some ⟨(materialise (env.parse (env.serialize L)) s.heap).2⟩,
           roots := s.roots ++ [⟨.modeOpen, (materialise (c.render (env.parse (env.serialize L))).1
                      ((materialise (env.parse (env.serialize L))
                        (materialise (env.parse (env.serialize L)) s.heap).1).1 ++ ext)).2⟩],
           shadow := some s.roots.length,
           calls := s.calls ++ [⟨some s.roots.length, some (env.parse (env.serialize L))⟩],
           nested := s.nested ++ nst },
         Outcome.ofRaised (c.render (env.parse (env.serialize L))).2) := by
  rw [handler_first_eq react env s L hsh hl]
  obtain ⟨h1, h2, h3, h4, h5, ⟨ext, h6⟩, ⟨nst, h7, h8⟩⟩ := hreact
    { heap := (materialise (env.parse (env.serialize L))
                (materialise (env.parse (env.serialize L)) s.heap).1).1,
      light := s.light,
      template := some ⟨(materialise (env.parse (env.serialize L)) s.heap).2⟩,
      roots := s.roots ++ [⟨.modeOpen, (materialise (env.parse (env.serialize L))
                (materialise (env.parse (env.serialize L)) s.heap).1).2⟩],
      shadow := some s.roots.length,
      calls := s.calls,
      nested := s.nested }
    (materialise (env.parse (env.serialize L))
      (materialise (env.parse (env.serialize L)) s.heap).1).2
  refine ⟨ext, nst, h8, ?_⟩
  generalize react _ _ = sR at h1 h2 h3 h4 h5 h6 h7 ⊢
  obtain ⟨hp, lt, tp, rs, sh, cs, ns⟩ := sR
  simp only at h1 h2 h3 h4 h5 h6 h7
  subst h1 h2 h3 h4 h5 h6 h7
  have hsnap : snapshot ((materialise (env.parse (env.serialize L))
      (materialise (env.parse (env.serialize L)) s.heap).1).1 ++ ext)
      (materialise (env.parse (env.serialize L))
        (materialise (env.parse (env.serialize L)) s.heap).1).2
        = some (env.parse (env.serialize L)) :=
    snapshot_append (snapshot_materialise _ _) ext
  simp only [typesetShadow, shadowRoot, List.getElem?_concat_length, if_true, hsnap, set_last]

theorem handler_sound (react : Reaction) (hreact : ∀ t ids, Grew t (react t ids))
    (env : Env) : Sound (handler react env) := by
  intro s
  cases hl : snapshot s.heap s.light with
  | none =>
    rw [handler_unreadable react env s hl]
    exact ⟨⟨[], by simp⟩, ⟨[], by simp, fun r hr => by cases hr⟩, by simp⟩
  | some L =>
    obtain ⟨e1, he1, -⟩ := materialise_grows (env.parse (env.serialize L)) s.heap
    cases hsh : s.shadow with
    | some rid =>
      rw [handler_again react env s L rid hsh hl]
      exact ⟨⟨e1, he1⟩, ⟨[], by simp, fun r hr => by cases hr⟩, by simp⟩
    | none =>
      obtain ⟨ext, nst, hb, heq⟩ := handler_first react hreact env s L hsh hl
      obtain ⟨e2, he2, -⟩ := materialise_grows (env.parse (env.serialize L))
        (materialise (env.parse (env.serialize L)) s.heap).1
      rw [heq]
      cases env.typesetShadow with
      | none =>
        refine ⟨⟨e1 ++ (e2 ++ ext), ?_⟩, ⟨nst, rfl, hb⟩, by simp⟩
        show _ ++ ext = _
        rw [he2, he1, List.append_assoc, List.append_assoc]
      | some c =>
        obtain ⟨e3, he3, -⟩ := materialise_grows (c.render (env.parse (env.serialize L))).1
          ((materialise (env.parse (env.serialize L))
            (materialise (env.parse (env.serialize L)) s.heap).1).1 ++ ext)
        refine ⟨⟨e1 ++ (e2 ++ (ext ++ e3)), ?_⟩, ⟨nst, rfl, hb⟩, by simp⟩
        show (materialise _ _).1 = _
        rw [he3, he2, he1]
        simp only [List.append_assoc]

theorem callback_sound (env : Env) (depth : Nat) : Sound (callback depth env) := by
  induction depth with
  | zero =>
    intro t
    exact ⟨⟨[], by simp [callback]⟩, ⟨[], by simp [callback], fun r hr => by cases hr⟩,
      by simp [callback]⟩
  | succ d ih =>
    show Sound (handler _ env)
    exact handler_sound _ (fun t ids => reactions_grew ih _ t ids) env

theorem react_grew (env : Env) (t : State) (ids : List Nat) :
    Grew t (reactions (callback env.maxNesting env) (t.heap.length + 1) t ids) :=
  reactions_grew (callback_sound env env.maxNesting) _ t ids

theorem connectedCallback_first (env : Env) (s : State) (L : Forest)
    (hsh : s.shadow = none) (hl : snapshot s.heap s.light = some L) :
    ∃ ext nst, (∀ r ∈ nst, r.calls.length ≤ 1) ∧
    connectedCallback env s =
      match env.typesetShadow with
      | none =>
        ({ heap := (materialise (env.parse (env.serialize L))
                      (materialise (env.parse (env.serialize L)) s.heap).1).1 ++ ext,
           light := s.light,
           template := some ⟨(materialise (env.parse (env.serialize L)) s.heap).2⟩,
           roots := s.roots ++ [⟨.modeOpen, (materialise (env.parse (env.serialize L))
                      (materialise (env.parse (env.serialize L)) s.heap).1).2⟩],
           shadow := some s.roots.length,
           calls := s.calls,
           nested := s.nested ++ nst }, .threw .typeError)
      | some c =>
        ({ heap := (materialise (c.render (env.parse (env.serialize L))).1
                      ((materialise (env.parse (env.serialize L))
                        (materialise (env.parse (env.serialize L)) s.heap).1).1 ++ ext)).1,
           light := s.light,
           template := some ⟨(materialise (env.parse (env.serialize L)) s.heap).2⟩,
           roots := s.roots ++ [⟨.modeOpen, (materialise (c.render (env.parse (env.serialize L))).1
                      ((materialise (env.parse (env.serialize L))
                        (materialise (env.parse (env.serialize L)) s.heap).1).1 ++ ext)).2⟩],
           shadow := some s.roots.length,
           calls := s.calls ++ [⟨some s.roots.length, some (env.parse (env.serialize L))⟩],
           nested := s.nested ++ nst },
         Outcome.ofRaised (c.render (env.parse (env.serialize L))).2) :=
  handler_first _ (react_grew env) env s L hsh hl

theorem connectedCallback_again (env : Env) (s : State) (L : Forest) (rid : Nat)
    (hsh : s.shadow = some rid) (hl : snapshot s.heap s.light = some L) :
    connectedCallback env s =
      ({ s with heap := (materialise (env.parse (env.serialize L)) s.heap).1,
                template := some ⟨(materialise (env.parse (env.serialize L)) s.heap).2⟩ },
       .threw .notSupportedError) :=
  handler_again _ env s L rid hsh hl

theorem shadowContent_last (h : Heap) (light : List Nat) (t : Option Template)
    (roots : List ShadowRoot) (mode : ShadowRootMode) (kids : List Nat) (calls : List Call)
    (nested : List NestedRun) :
    shadowContent { heap := h, light := light, template := t,
                    roots := roots ++ [⟨mode, kids⟩], shadow := some roots.length,
                    calls := calls, nested := nested } = snapshot h kids := by
  simp only [shadowContent, List.getElem?_concat_length]

theorem snapshot_clone_later (f : Forest) (h ext : Heap) :
    snapshot ((materialise f h).1 ++ ext) (materialise f h).2 = some f :=
  snapshot_append (snapshot_materialise f h) ext

theorem typesetShadow_nested (env : Env) (s : State) (arg : Option Nat) :
    (typesetShadow env s arg).1.nested = s.nested := by
  unfold typesetShadow
  cases env.typesetShadow with
  | none => rfl
  | some c =>
    cases arg with
    | none => rfl
    | some rid =>
      simp only []
      cases s.roots[rid]? with
      | none => rfl
      | some root =>
        simp only []
        cases snapshot s.heap root.children with
        | none => rfl
        | some seen => rfl

theorem materialise_plain (f : Forest) (h : Heap) (hp : f.plain = true) (i : Nat)
    (r : NodeRec) (h1 : h.length ≤ i) (hi : (materialise f h).1[i]? = some r) :
    r.data.isCustomElement = false := by
  induction f generalizing h with
  | nil =>
    simp only [materialise] at hi
    have := getElem?_some_lt hi
    omega
  | node d kids rest ihk ihr =>
    simp only [Forest.plain, Bool.and_eq_true, Bool.not_eq_true'] at hp
    obtain ⟨⟨hd, hkp⟩, hrp⟩ := hp
    simp only [materialise] at hi
    rcases Nat.lt_trichotomy i (materialise kids h).1.length with hlt | heq | hgt
    · rw [materialise_lookup rest _ i (by simp; omega),
        List.getElem?_append_left hlt] at hi
      exact ihk h hkp h1 hi
    · subst heq
      rw [materialise_lookup rest _ _ (by simp)] at hi
      simp at hi
      subst hi
      exact hd
    · exact ihr _ hrp (by simp; omega) hi

theorem reactions_plain (run : State → State × Outcome) (s : State) (lo hi : Nat)
    (hc : Closed lo hi s.heap)
    (hp : ∀ i r, lo ≤ i → i < hi → s.heap[i]? = some r → r.data.isCustomElement = false)
    (k : Nat) (ids : List Nat) (hw : Within lo hi ids) : reactions run k s ids = s := by
  induction k generalizing ids with
  | zero => rfl
  | succ k ih =>
    cases ids with
    | nil => rfl
    | cons i is =>
      have hb := hw i (List.mem_cons_self _ _)
      have his : Within lo hi is := fun j hj => hw j (List.mem_cons_of_mem _ hj)
      simp only [reactions]
      cases hr : s.heap[i]? with
      | none => rfl
      | some r =>
        simp only [hp i r hb.1 hb.2 hr, Bool.false_eq_true, if_false]
        rw [ih r.children (hc i r hb.1 hb.2 hr), ih is his]

theorem connectedCallback_plain (env : Env) (s : State) (L : Forest)
    (hsh : s.shadow = none) (hl : snapshot s.heap s.light = some L)
    (hp : (env.parse (env.serialize L)).plain = true) :
    (connectedCallback env s).1.nested = s.nested := by
  unfold connectedCallback
  rw [handler_first_eq _ env s L hsh hl, typesetShadow_nested]
  show (reactions _ _ _ _).nested = s.nested
  rw [reactions_plain _ _ (materialise (env.parse (env.serialize L)) s.heap).1.length
    (materialise (env.parse (env.serialize L))
      (materialise (env.parse (env.serialize L)) s.heap).1).1.length
    (materialise_closed _ _)
    (fun i r h1 _ hi => materialise_plain _ _ hp i r h1 hi) _ _ (materialise_within _ _)]

/-! ## The claims -/

/-- C1, as stated, fails on the page `Demo.env`: the element has no shadow root
and inner markup `<p>x</p>`, the handler returns, and the shadow root does not
hold a copy of the parsed markup, because the typesetter has rewritten it. -/
theorem C1_typesetting_rewrites_the_clone :
    Demo.fresh.shadow = none ∧
    innerHTML Demo.env Demo.fresh = some "<p>x</p>" ∧
    (connectedCallback Demo.env Demo.fresh).2 = .returned ∧
    shadowContent (connectedCallback Demo.env Demo.fresh).1
      ≠ some (Demo.env.parse "<p>x</p>") := by
  decide

/-- C1, amended.  For every markup `M` that is the inner markup of an element
with no shadow root when `connectedCallback` runs, with `MathJax.typesetShadow`
available: the run leaves the element with a shadow root; the collaborator is
invoked on that root when the root holds exactly the parse of `M`; after the
run the root holds what the collaborator made of that copy, which is the copy
itself whenever the collaborator leaves the tree as it found it; and the
handler returns when the collaborator raises nothing. -/
theorem C1_shadow_holds_the_typeset_clone (env : Env) (s : State) (M : String)
    (c : Collaborator) (hsh : s.shadow = none) (hM : innerHTML env s = some M)
    (hc : env.typesetShadow = some c) :
    (connectedCallback env s).1.shadow = some s.roots.length ∧
    (connectedCallback env s).1.calls
      = s.calls ++ [⟨some s.roots.length, some (env.parse M)⟩] ∧
    shadowContent (connectedCallback env s).1 = some (c.render (env.parse M)).1 ∧
    ((c.render (env.parse M)).1 = env.parse M →
      shadowContent (connectedCallback env s).1 = some (env.parse M)) ∧
    ((c.render (env.parse M)).2 = none → (connectedCallback env s).2 = .returned) := by
  obtain ⟨L, hl, rfl⟩ := innerHTML_some hM
  obtain ⟨ext, nst, -, heq⟩ := connectedCallback_first env s L hsh hl
  rw [heq]
  simp only [hc, shadowContent_last, snapshot_materialise, true_and]
  refine ⟨fun h => by rw [h], fun h => by rw [h]; rfl⟩

/-- C1, amended, on the demo page: the shadow root holds the typeset paragraph. -/
theorem C1_shadow_holds_the_typeset_clone_witness :
    Demo.fresh.shadow = none ∧
    innerHTML Demo.env Demo.fresh = some "<p>x</p>" ∧
    shadowContent (connectedCallback Demo.env Demo.fresh).1
      = some (Demo.typeset (Demo.parse "<p>x</p>")) :=
  ⟨by decide, by decide,
    (C1_shadow_holds_the_typeset_clone Demo.env Demo.fresh "<p>x</p>" Demo.rendering
      (by decide) (by decide) rfl).2.2.1⟩

/-- C2, as stated, fails on the page `Demo.env` when the inner markup holds a
`custom-element`: the element has no shadow root, nothing has been invoked,
and one run of the handler contains two invocations of
`MathJax.typesetShadow`, the first made by the handler of the nested clone,
on the clone's own shadow root, while line 9 appends. -/
theorem C2_nested_clone_is_typeset_too :
    Demo.nesting.shadow = none ∧
    innerHTML Demo.env Demo.nesting = some "<custom-element><p>x</p></custom-element>" ∧
    invocations Demo.nesting = 0 ∧
    invocations (connectedCallback Demo.env Demo.nesting).1 = 2 ∧
    (connectedCallback Demo.env Demo.nesting).1.nested.map (fun r => r.calls)
      = [[⟨some 0, some (Demo.parse "<p>x</p>")⟩]] := by
  decide

/-- C2, amended.  For every element with no shadow root and every inner markup
`M`, the handler of the element itself invokes `MathJax.typesetShadow` exactly
once in one run, on the shadow root the run attached, when that root already
holds the full clone of the parse of `M`, and the run ends the way that
invocation ends.  The nested runs that line 9 sets off invoke the entry point
at most once each; when the parse of `M` holds no `custom-element` there is
no nested run, and the run contains exactly one invocation. -/
theorem C2_own_invocation_once_after_clone (env : Env) (s : State) (M : String)
    (c : Collaborator) (hsh : s.shadow = none) (hM : innerHTML env s = some M)
    (hc : env.typesetShadow = some c) :
    (connectedCallback env s).1.calls
      = s.calls ++ [⟨some s.roots.length, some (env.parse M)⟩] ∧
    (connectedCallback env s).1.calls.length = s.calls.length + 1 ∧
    (connectedCallback env s).1.shadow = some s.roots.length ∧
    (connectedCallback env s).2 = Outcome.ofRaised (c.render (env.parse M)).2 ∧
    (∃ nst, (connectedCallback env s).1.nested = s.nested ++ nst ∧
      ∀ r ∈ nst, r.calls.length ≤ 1) ∧
    ((env.parse M).plain = true →
      (connectedCallback env s).1.nested = s.nested ∧
      invocations (connectedCallback env s).1 = invocations s + 1) := by
  obtain ⟨L, hl, rfl⟩ := innerHTML_some hM
  obtain ⟨ext, nst, hb, heq⟩ := connectedCallback_first env s L hsh hl
  have hcalls : (connectedCallback env s).1.calls
      = s.calls ++ [⟨some s.roots.length, some (env.parse (env.serialize L))⟩] := by
    rw [heq]; simp only [hc]
  refine ⟨hcalls, by rw [hcalls]; simp, by rw [heq]; simp only [hc],
    by rw [heq]; simp only [hc], ⟨nst, by rw [heq]; simp only [hc], hb⟩, ?_⟩
  intro hp
  have hn := connectedCallback_plain env s L hsh hl hp
  refine ⟨hn, ?_⟩
  unfold invocations
  rw [hn, hcalls]
  simp only [List.length_append, List.length_singleton]
  omega

/-- C2, amended, on the demo page: the paragraph element gets one invocation,
on a root holding the paragraph, and the empty element gets one too. -/
theorem C2_own_invocation_once_after_clone_witness :
    (Demo.fresh.shadow = none ∧
      innerHTML Demo.env Demo.fresh = some "<p>x</p>" ∧
      (Demo.parse "<p>x</p>").plain = true ∧
      (connectedCallback Demo.env Demo.fresh).1.calls
        = [⟨some 0, some (.node (.element "p" []) (.node (.text "x") .nil .nil) .nil)⟩] ∧
      invocations (connectedCallback Demo.env Demo.fresh).1 = invocations Demo.fresh + 1) ∧
    (Demo.empty.shadow = none ∧
      innerHTML Demo.env Demo.empty = some "" ∧
      (connectedCallback Demo.env Demo.empty).1.calls = [⟨some 0, some .nil⟩]) :=
  ⟨⟨by decide, by decide, by decide,
      (C2_own_invocation_once_after_clone Demo.env Demo.fresh "<p>x</p>" Demo.rendering
        (by decide) (by decide) rfl).1,
      ((C2_own_invocation_once_after_clone Demo.env Demo.fresh "<p>x</p>" Demo.rendering
        (by decide) (by decide) rfl).2.2.2.2.2 (by decide)).2⟩,
    ⟨by decide, by decide,
      (C2_own_invocation_once_after_clone Demo.env Demo.empty "" Demo.rendering
        (by decide) (by decide) rfl).1⟩⟩

/-- C3.  On every first connection the argument of `MathJax.typesetShadow` is
the shadow root this run created: a root that did not exist before, that is
now in the element's slot with mode open, and that held the clone when the
collaborator was invoked.  The getter `this.shadowRoot` yields the root that
`attachShadow` returned because the mode is open; after an attach in closed
mode it yields `null`. -/
theorem C3_argument_is_the_attached_root (env : Env) (s : State) (M : String)
    (c : Collaborator) (hsh : s.shadow = none) (hM : innerHTML env s = some M)
    (hc : env.typesetShadow = some c) :
    s.roots[s.roots.length]? = none ∧
    (connectedCallback env s).1.roots.length = s.roots.length + 1 ∧
    (connectedCallback env s).1.shadow = some s.roots.length ∧
    (∃ kids, (connectedCallback env s).1.roots[s.roots.length]? = some ⟨.modeOpen, kids⟩) ∧
    (∃ call, (connectedCallback env s).1.calls = s.calls ++ [call] ∧
      call.arg = (connectedCallback env s).1.shadow ∧
      call.seen = some (env.parse M)) ∧
    (∀ t t2 rid, attachShadow .modeOpen t = .ok (t2, rid) →
      t2.shadow = some rid ∧ shadowRoot t2 = some rid) ∧
    (∀ t t2 rid, attachShadow .modeClosed t = .ok (t2, rid) →
      t2.shadow = some rid ∧ shadowRoot t2 = none) := by
  obtain ⟨L, hl, rfl⟩ := innerHTML_some hM
  obtain ⟨ext, nst, -, heq⟩ := connectedCallback_first env s L hsh hl
  rw [heq]
  simp only [hc]
  refine ⟨by simp, by simp, trivial, ⟨_, List.getElem?_concat_length _ _⟩,
    ⟨_, rfl, rfl, rfl⟩, ?_, ?_⟩
  · intro t t2 rid h
    unfold attachShadow at h
    cases ht : t.shadow with
    | some r => simp [ht] at h
    | none =>
      simp only [ht, Except.ok.injEq, Prod.mk.injEq] at h
      obtain ⟨rfl, rfl⟩ := h
      simp [shadowRoot]
  · intro t t2 rid h
    unfold attachShadow at h
    cases ht : t.shadow with
    | some r => simp [ht] at h
    | none =>
      simp only [ht, Except.ok.injEq, Prod.mk.injEq] at h
      obtain ⟨rfl, rfl⟩ := h
      simp [shadowRoot]

/-- C3 on the demo page: the collaborator received root 0, the root in the
element's slot. -/
theorem C3_argument_is_the_attached_root_witness :
    Demo.fresh.shadow = none ∧
    innerHTML Demo.env Demo.fresh = some "<p>x</p>" ∧
    (connectedCallback Demo.env Demo.fresh).1.shadow = some 0 ∧
    (∃ call, (connectedCallback Demo.env Demo.fresh).1.calls = [] ++ [call] ∧
      call.arg = (connectedCallback Demo.env Demo.fresh).1.shadow ∧
      call.seen = some (Demo.parse "<p>x</p>")) :=
  ⟨by decide, by decide,
    (C3_argument_is_the_attached_root Demo.env Demo.fresh "<p>x</p>" Demo.rendering
      (by decide) (by decide) rfl).2.2.1,
    (C3_argument_is_the_attached_root Demo.env Demo.fresh "<p>x</p>" Demo.rendering
      (by decide) (by decide) rfl).2.2.2.2.1⟩

/-- C5, as stated, fails on the page `Demo.envFailing`, whose collaborator
raises after it has emptied the subtree: the handler raises that failure, and
the shadow root left behind does not hold the clone of the captured markup. -/
theorem C5_failing_collaborator_leaves_its_own_state :
    Demo.fresh.shadow = none ∧
    innerHTML Demo.envFailing Demo.fresh = some "<p>x</p>" ∧
    (connectedCallback Demo.envFailing Demo.fresh).2 = .threw (.collaborator 1) ∧
    shadowContent (connectedCallback Demo.envFailing Demo.fresh).1
      ≠ some (Demo.envFailing.parse "<p>x</p>") := by
  decide

/-- C5, amended.  On a first connection with inner markup `M`: when
`MathJax.typesetShadow` is unavailable the handler raises, nothing is invoked,
and the state left behind has the shadow root attached, holding exactly the
parse of `M`; when the collaborator raises `e`, the handler raises the same
`e`, the collaborator was invoked on the attached root holding exactly the
parse of `M`, and the root left behind holds what the failed call left of it,
which is the unrendered clone whenever the call left the tree as it found
it. -/
theorem C5_failure_is_not_caught_after_the_clone (env : Env) (s : State) (M : String)
    (hsh : s.shadow = none) (hM : innerHTML env s = some M) :
    (env.typesetShadow = none →
      (connectedCallback env s).2 = .threw .typeError ∧
      (connectedCallback env s).1.shadow = some s.roots.length ∧
      (connectedCallback env s).1.calls = s.calls ∧
      shadowContent (connectedCallback env s).1 = some (env.parse M)) ∧
    (∀ c e, env.typesetShadow = some c → (c.render (env.parse M)).2 = some e →
      (connectedCallback env s).2 = .threw e ∧
      (connectedCallback env s).1.shadow = some s.roots.length ∧
      (connectedCallback env s).1.calls
        = s.calls ++ [⟨some s.roots.length, some (env.parse M)⟩] ∧
      shadowContent (connectedCallback env s).1 = some (c.render (env.parse M)).1 ∧
      ((c.render (env.parse M)).1 = env.parse M →
        shadowContent (connectedCallback env s).1 = some (env.parse M))) := by
  obtain ⟨L, hl, rfl⟩ := innerHTML_some hM
  obtain ⟨ext, nst, -, heq⟩ := connectedCallback_first env s L hsh hl
  rw [heq]
  constructor
  · intro hc
    simp only [hc, shadowContent_last, snapshot_clone_later, and_self]
  · intro c e hc he
    simp only [hc, shadowContent_last, snapshot_materialise, true_and, he, Outcome.ofRaised]
    exact fun h => by rw [h]

/-- C5, amended, on the page without `MathJax.typesetShadow`: the handler
raises and the shadow root holds the unrendered paragraph. -/
theorem C5_failure_is_not_caught_after_the_clone_witness :
    Demo.fresh.shadow = none ∧
    innerHTML Demo.envMissing Demo.fresh = some "<p>x</p>" ∧
    Demo.envMissing.typesetShadow = none ∧
    (connectedCallback Demo.envMissing Demo.fresh).2 = .threw .typeError ∧
    shadowContent (connectedCallback Demo.envMissing Demo.fresh).1
      = some (Demo.parse "<p>x</p>") :=
  ⟨by decide, by decide, rfl,
    ((C5_failure_is_not_caught_after_the_clone Demo.envMissing Demo.fresh "<p>x</p>"
      (by decide) (by decide)).1 rfl).1,
    ((C5_failure_is_not_caught_after_the_clone Demo.envMissing Demo.fresh "<p>x</p>"
      (by decide) (by decide)).1 rfl).2.2.2⟩

/-- C8.  Construction performs no work: the constructed element has no shadow
root, no `template` property, no shadow root was ever created for it, and the
trace of invocations of `MathJax.typesetShadow` is what it was; changes of its
light DOM made while `connectedCallback` has not run leave all that as it
is. -/
theorem C8_construction_does_nothing (h : Heap) (light : List Nat) (calls : List Call) :
    (constructor h light calls).shadow = none ∧
    (constructor h light calls).template = none ∧
    (constructor h light calls).roots = [] ∧
    (constructor h light calls).calls = calls ∧
    (constructor h light calls).heap = h ∧
    (constructor h light calls).light = light ∧
    shadowContent (constructor h light calls) = none ∧
    templateContent (constructor h light calls) = none ∧
    (constructor h light calls).nested = [] ∧
    ∀ es ids,
      ((constructor h light calls).editLight es ids).shadow = none ∧
      ((constructor h light calls).editLight es ids).template = none ∧
      ((constructor h light calls).editLight es ids).roots = [] ∧
      ((constructor h light calls).editLight es ids).calls = calls :=
  ⟨rfl, rfl, rfl, rfl, rfl, rfl, rfl, rfl, rfl, fun _ _ => ⟨rfl, rfl, rfl, rfl⟩⟩

theorem shadowContent_again (s : State) (g : Forest) (t : Option Template) (F : Forest)
    (hF : shadowContent s = some F) :
    shadowContent { s with heap := (materialise g s.heap).1, template := t } = some F := by
  unfold shadowContent at hF ⊢
  cases hs : s.shadow with
  | none => simp [hs] at hF
  | some rid =>
    simp only [hs] at hF ⊢
    cases hr : s.roots[rid]? with
    | none => simp [hr] at hF
    | some root =>
      simp only [hr] at hF ⊢
      exact snapshot_materialise_old hF g

/-- C9.  When `connectedCallback` runs on an element that already has a shadow
root, with inner markup `M` at that moment, the handler raises the
`NotSupportedError` of `attachShadow`; `MathJax.typesetShadow` is not invoked,
the slot, the shadow roots and the shadow content are what they were; but
`this.template` has been overwritten: its content is the parse of `M`, made of
nodes that did not exist before the run. -/
theorem C9_reconnection_raises_after_overwriting_template (env : Env) (s : State)
    (M : String) (rid : Nat) (hsh : s.shadow = some rid) (hM : innerHTML env s = some M) :
    (connectedCallback env s).2 = .threw .notSupportedError ∧
    (connectedCallback env s).1.calls = s.calls ∧
    (connectedCallback env s).1.shadow = some rid ∧
    (connectedCallback env s).1.roots = s.roots ∧
    (∀ F, shadowContent s = some F → shadowContent (connectedCallback env s).1 = some F) ∧
    templateContent (connectedCallback env s).1 = some (env.parse M) ∧
    Within s.heap.length (connectedCallback env s).1.heap.length
      (templateChildren (connectedCallback env s).1) := by
  obtain ⟨L, hl, rfl⟩ := innerHTML_some hM
  rw [connectedCallback_again env s L rid hsh hl]
  refine ⟨rfl, rfl, hsh, rfl, fun F hF => shadowContent_again s _ _ F hF, ?_, ?_⟩
  · simp only [templateContent, snapshot_materialise]
  · exact materialise_within _ _

/-- C9 on the demo page: the connected element, whose light DOM has meanwhile
been reduced to the text `x`, is connected again. -/
theorem C9_reconnection_raises_after_overwriting_template_witness :
    (Demo.connected.editLight [] [0]).shadow = some 0 ∧
    innerHTML Demo.env (Demo.connected.editLight [] [0]) = some "x" ∧
    (connectedCallback Demo.env (Demo.connected.editLight [] [0])).2
      = .threw .notSupportedError ∧
    templateContent (Demo.connected.editLight [] [0]) = some (Demo.parse "<p>x</p>") ∧
    templateContent (connectedCallback Demo.env (Demo.connected.editLight [] [0])).1
      = some (Demo.parse "x") :=
  ⟨by decide, by decide,
    (C9_reconnection_raises_after_overwriting_template Demo.env
      (Demo.connected.editLight [] [0]) "x" 0 (by decide) (by decide)).1,
    by decide,
    (C9_reconnection_raises_after_overwriting_template Demo.env
      (Demo.connected.editLight [] [0]) "x" 0 (by decide) (by decide)).2.2.2.2.2.1⟩

theorem connectedCallback_unreadable (env : Env) (s : State)
    (hl : snapshot s.heap s.light = none) :
    connectedCallback env s = ({ s with template := some createElement }, .stuck) :=
  handler_unreadable _ env s hl

theorem run_keeps_attached_root (env : Env) (s : State) (rid : Nat)
    (hsh : s.shadow = some rid) :
    (connectedCallback env s).1.roots = s.roots ∧
    (connectedCallback env s).1.shadow = some rid := by
  cases hl : snapshot s.heap s.light with
  | none => rw [connectedCallback_unreadable env s hl]; exact ⟨rfl, hsh⟩
  | some L => rw [connectedCallback_again env s L rid hsh hl]; exact ⟨rfl, hsh⟩

theorem run_attaches_at_most_one_root (env : Env) (s : State) (hsh : s.shadow = none) :
    ((connectedCallback env s).1.roots = s.roots ∧
      (connectedCallback env s).1.shadow = none) ∨
    ((connectedCallback env s).1.roots.length = s.roots.length + 1 ∧
      (connectedCallback env s).1.shadow = some s.roots.length) := by
  cases hl : snapshot s.heap s.light with
  | none => rw [connectedCallback_unreadable env s hl]; exact Or.inl ⟨rfl, hsh⟩
  | some L =>
    obtain ⟨ext, nst, -, heq⟩ := connectedCallback_first env s L hsh hl
    rw [heq]
    cases env.typesetShadow with
    | none => exact Or.inr ⟨by simp, rfl⟩
    | some c => exact Or.inr ⟨by simp, rfl⟩

theorem reachable_roots {s : State} (hr : Reachable s) :
    (s.shadow = none ∧ s.roots = []) ∨ (s.shadow = some 0 ∧ s.roots.length = 1) := by
  induction hr with
  | constructed h light calls => exact Or.inl ⟨rfl, rfl⟩
  | connected env _ ih =>
    rcases ih with ⟨h1, h2⟩ | ⟨h1, h2⟩
    · rcases run_attaches_at_most_one_root env _ h1 with ⟨a, b⟩ | ⟨a, b⟩
      · exact Or.inl ⟨b, by rw [a, h2]⟩
      · refine Or.inr ⟨by rw [b, h2]; rfl, by rw [a, h2]; rfl⟩
    · obtain ⟨a, b⟩ := run_keeps_attached_root env _ 0 h1
      exact Or.inr ⟨b, by rw [a, h2]⟩
  | edited es ids _ ih => exact ih

/-- C4.  In every state an element instance can reach through construction,
runs of `connectedCallback` and changes of its light DOM, at most one shadow
root has ever been created for the element, the element's slot is empty
exactly when none has been created and otherwise holds that one root; and a
run of the handler on an element that already has a shadow root creates no
further root and leaves the slot and the existing root as they are. -/
theorem C4_at_most_one_shadow_root (s : State) (hr : Reachable s) :
    s.roots.length ≤ 1 ∧
    (s.shadow = none ↔ s.roots = []) ∧
    (∀ rid, s.shadow = some rid → rid = 0 ∧ s.roots.length = 1) ∧
    (∀ env rid, s.shadow = some rid →
      (connectedCallback env s).1.roots = s.roots ∧
      (connectedCallback env s).1.shadow = some rid ∧
      (connectedCallback env s).1.roots.length ≤ 1) := by
  rcases reachable_roots hr with ⟨h1, h2⟩ | ⟨h1, h2⟩
  · refine ⟨by simp [h2], ⟨fun _ => h2, fun _ => h1⟩, ?_, ?_⟩
    · intro rid h; rw [h1] at h; cases h
    · intro env rid h; rw [h1] at h; cases h
  · refine ⟨by omega, ⟨fun h => ?_, fun h => ?_⟩, ?_, ?_⟩
    · rw [h1] at h; cases h
    · rw [h] at h2; cases h2
    · intro rid h
      rw [h1] at h
      cases h
      exact ⟨rfl, h2⟩
    · intro env rid h
      obtain ⟨a, b⟩ := run_keeps_attached_root env s rid h
      exact ⟨a, b, by rw [a]; omega⟩

/-- C4 on the demo page: the connected element is connected a second time. -/
theorem C4_at_most_one_shadow_root_witness :
    Reachable Demo.connected ∧
    Demo.connected.shadow = some 0 ∧
    (connectedCallback Demo.env Demo.connected).1.roots = Demo.connected.roots ∧
    (connectedCallback Demo.env Demo.connected).1.shadow = some 0 :=
  ⟨Reachable.connected Demo.env (Reachable.constructed Demo.heap [1] []),
    by decide,
    ((C4_at_most_one_shadow_root Demo.connected
      (Reachable.connected Demo.env (Reachable.constructed Demo.heap [1] []))).2.2.2
        Demo.env 0 (by decide)).1,
    ((C4_at_most_one_shadow_root Demo.connected
      (Reachable.connected Demo.env (Reachable.constructed Demo.heap [1] []))).2.2.2
        Demo.env 0 (by decide)).2.1⟩

theorem closed_append {lo hi : Nat} {h : Heap} (hc : Closed lo hi h) (hh : hi ≤ h.length)
    (ext : Heap) : Closed lo hi (h ++ ext) := by
  intro i r h1 h2 hi2 c hcm
  rw [List.getElem?_append_left (by omega)] at hi2
  exact hc i r h1 h2 hi2 c hcm

theorem closed_materialise_old {lo hi : Nat} {h : Heap} (hc : Closed lo hi h)
    (hh : hi ≤ h.length) (g : Forest) : Closed lo hi (materialise g h).1 := by
  obtain ⟨e, he, -⟩ := materialise_grows g h
  rw [he]
  exact closed_append hc hh e

theorem snapshot_edits_outside {h : Heap} {ids : List Nat} {f : Forest} {lo hi : Nat}
    (hs : snapshot h ids = some f) (hw : Within lo hi ids) (hc : Closed lo hi h)
    (es : List Edit) (hout : ∀ e ∈ es, ∀ n r, e = .write n r → n < lo ∨ hi ≤ n) :
    snapshot (applyEdits es h) ids = some f := by
  refine snapshot_applyEdits hs es ?_
  intro e he n r hen hr
  have h1 := reach_within hc hr hw
  have h2 := hout e he n r hen
  omega

/-- Where a first connection puts things: the nodes of the template content
fill the identities `a ≤ i < b`, the nodes of the shadow tree the identities
`c ≤ i < d`, both after every node the store held before, and the two regions
do not meet. -/
theorem first_connection_layout (env : Env) (s : State) (L : Forest)
    (hsh : s.shadow = none) (hl : snapshot s.heap s.light = some L) :
    ∃ a b c d : Nat,
      s.heap.length ≤ a ∧ a ≤ b ∧ b ≤ c ∧ c ≤ d ∧
      d ≤ (connectedCallback env s).1.heap.length ∧
      (∃ ext, (connectedCallback env s).1.heap = s.heap ++ ext) ∧
      (connectedCallback env s).1.light = s.light ∧
      Within a b (templateChildren (connectedCallback env s).1) ∧
      Closed a b (connectedCallback env s).1.heap ∧
      Within c d (shadowChildren (connectedCallback env s).1) ∧
      Closed c d (connectedCallback env s).1.heap ∧
      templateContent (connectedCallback env s).1
        = some (env.parse (env.serialize L)) ∧
      snapshot (connectedCallback env s).1.heap
          (templateChildren (connectedCallback env s).1)
        = templateContent (connectedCallback env s).1 ∧
      snapshot (connectedCallback env s).1.heap
          (shadowChildren (connectedCallback env s).1)
        = shadowContent (connectedCallback env s).1 ∧
      (shadowContent (connectedCallback env s).1).isSome = true ∧
      (∃ rid root, (connectedCallback env s).1.shadow = some rid ∧
        (connectedCallback env s).1.roots[rid]? = some root) ∧
      (∃ t, (connectedCallback env s).1.template = some t) := by
  have l1 := materialise_length (env.parse (env.serialize L)) s.heap
  have w1 := materialise_within (env.parse (env.serialize L)) s.heap
  have c1 := materialise_closed (env.parse (env.serialize L)) s.heap
  have t1 := snapshot_materialise (env.parse (env.serialize L)) s.heap
  have l2 := materialise_length (env.parse (env.serialize L))
    (materialise (env.parse (env.serialize L)) s.heap).1
  have w2 := materialise_within (env.parse (env.serialize L))
    (materialise (env.parse (env.serialize L)) s.heap).1
  have c2 := materialise_closed (env.parse (env.serialize L))
    (materialise (env.parse (env.serialize L)) s.heap).1
  obtain ⟨e1, he1, -⟩ := materialise_grows (env.parse (env.serialize L)) s.heap
  obtain ⟨e2, he2, -⟩ := materialise_grows (env.parse (env.serialize L))
    (materialise (env.parse (env.serialize L)) s.heap).1
  obtain ⟨ext, nst, -, heq⟩ := connectedCallback_first env s L hsh hl
  rw [heq]
  have ct : Closed s.heap.length (materialise (env.parse (env.serialize L)) s.heap).1.length
      ((materialise (env.parse (env.serialize L))
        (materialise (env.parse (env.serialize L)) s.heap).1).1 ++ ext) :=
    closed_append (closed_materialise_old c1 (le_refl _) _) (by omega) ext
  have tt : snapshot ((materialise (env.parse (env.serialize L))
        (materialise (env.parse (env.serialize L)) s.heap).1).1 ++ ext)
      (materialise (env.parse (env.serialize L)) s.heap).2
        = some (env.parse (env.serialize L)) :=
    snapshot_append (snapshot_materialise_old t1 _) ext
  cases hc : env.typesetShadow with
  | none =>
    dsimp only
    refine ⟨s.heap.length, (materialise (env.parse (env.serialize L)) s.heap).1.length,
      (materialise (env.parse (env.serialize L)) s.heap).1.length,
      (materialise (env.parse (env.serialize L))
        (materialise (env.parse (env.serialize L)) s.heap).1).1.length,
      le_refl _, by omega, le_refl _, by omega, by simp,
      ⟨e1 ++ (e2 ++ ext), by rw [he2, he1, List.append_assoc, List.append_assoc]⟩, rfl, w1,
      ct, ?_, closed_append c2 (le_refl _) ext, ?_, rfl, ?_, ?_,
      ⟨_, _, rfl, List.getElem?_concat_length _ _⟩, ⟨_, rfl⟩⟩
    · simpa only [shadowChildren, List.getElem?_concat_length] using w2
    · simp only [templateContent]
      exact tt
    · simp only [shadowChildren, shadowContent, List.getElem?_concat_length]
    · simp only [shadowContent_last, snapshot_clone_later, Option.isSome_some]
  | some c =>
    have l3 := materialise_length (c.render (env.parse (env.serialize L))).1
      ((materialise (env.parse (env.serialize L))
        (materialise (env.parse (env.serialize L)) s.heap).1).1 ++ ext)
    have w3 := materialise_within (c.render (env.parse (env.serialize L))).1
      ((materialise (env.parse (env.serialize L))
        (materialise (env.parse (env.serialize L)) s.heap).1).1 ++ ext)
    have c3 := materialise_closed (c.render (env.parse (env.serialize L))).1
      ((materialise (env.parse (env.serialize L))
        (materialise (env.parse (env.serialize L)) s.heap).1).1 ++ ext)
    obtain ⟨e3, he3, -⟩ := materialise_grows (c.render (env.parse (env.serialize L))).1
      ((materialise (env.parse (env.serialize L))
        (materialise (env.parse (env.serialize L)) s.heap).1).1 ++ ext)
    have lx : ((materialise (env.parse (env.serialize L))
        (materialise (env.parse (env.serialize L)) s.heap).1).1 ++ ext).length
          = (materialise (env.parse (env.serialize L))
              (materialise (env.parse (env.serialize L)) s.heap).1).1.length + ext.length :=
      List.length_append _ _
    dsimp only
    refine ⟨s.heap.length, (materialise (env.parse (env.serialize L)) s.heap).1.length,
      ((materialise (env.parse (env.serialize L))
        (materialise (env.parse (env.serialize L)) s.heap).1).1 ++ ext).length,
      (materialise (c.render (env.parse (env.serialize L))).1
        ((materialise (env.parse (env.serialize L))
          (materialise (env.parse (env.serialize L)) s.heap).1).1 ++ ext)).1.length,
      le_refl _, by omega, by omega, by omega, le_refl _,
      ⟨e1 ++ (e2 ++ (ext ++ e3)), ?_⟩, rfl, w1,
      closed_materialise_old ct (by omega) _,
      ?_, c3, ?_, rfl, ?_, ?_,
      ⟨_, _, rfl, List.getElem?_concat_length _ _⟩, ⟨_, rfl⟩⟩
    · rw [he3, he2, he1]
      simp only [List.append_assoc]
    · simpa only [shadowChildren, List.getElem?_concat_length] using w3
    · simp only [templateContent]
      exact snapshot_materialise_old tt _
    · simp only [shadowChildren, shadowContent, List.getElem?_concat_length]
    · simp only [shadowContent_last, snapshot_materialise, Option.isSome_some]

theorem run_frame (env : Env) (s : State) (L : Forest)
    (hl : snapshot s.heap s.light = some L) :
    (connectedCallback env s).1.light = s.light ∧
    ∃ ext, (connectedCallback env s).1.heap = s.heap ++ ext := by
  cases hsh : s.shadow with
  | none =>
    obtain ⟨a, b, c, d, -, -, -, -, -, hext, hlight, -⟩ :=
      first_connection_layout env s L hsh hl
    exact ⟨hlight, hext⟩
  | some rid =>
    rw [connectedCallback_again env s L rid hsh hl]
    obtain ⟨e, he, -⟩ := materialise_grows (env.parse (env.serialize L)) s.heap
    exact ⟨rfl, e, he⟩

/-- C6.  On a first connection the markup `M` is read while the element has
no shadow root, and it is the parse of that `M` that the template retains.
Afterwards no node of the light DOM is a node of the shadow tree, and every
later change of the light DOM (any sequence of overwrites of light-DOM nodes
or of nodes created later, creations of nodes, and any new child list for the
element) leaves the content of the shadow root what the connection made
it. -/
theorem C6_shadow_not_bound_to_light_dom (env : Env) (s : State) (M : String)
    (hsh : s.shadow = none) (hM : innerHTML env s = some M) :
    templateContent (connectedCallback env s).1 = some (env.parse M) ∧
    (connectedCallback env s).1.shadow = some s.roots.length ∧
    shadowContent (connectedCallback env s).1
      = some (match env.typesetShadow with
              | none => env.parse M
              | some c => (c.render (env.parse M)).1) ∧
    (∀ n, Reach (connectedCallback env s).1.heap (connectedCallback env s).1.light n →
      ¬ Reach (connectedCallback env s).1.heap
          (shadowChildren (connectedCallback env s).1) n) ∧
    (∀ es ids,
      EditsOf (connectedCallback env s).1.heap (connectedCallback env s).1.light es →
      shadowContent ((connectedCallback env s).1.editLight es ids)
        = shadowContent (connectedCallback env s).1) := by
  obtain ⟨L, hl, rfl⟩ := innerHTML_some hM
  obtain ⟨a, b, c, d, hab, hbc, hcd, hde, hdl, ⟨ext, hext⟩, hlight, wt, ct, ws, cs, htc,
    hts, hss, hsome, ⟨rid, root, hrid, hroot⟩, ⟨t, ht⟩⟩ :=
    first_connection_layout env s L hsh hl
  have hshadow : (connectedCallback env s).1.shadow = some s.roots.length ∧
      shadowContent (connectedCallback env s).1
        = some (match env.typesetShadow with
                | none => env.parse (env.serialize L)
                | some c => (c.render (env.parse (env.serialize L))).1) := by
    obtain ⟨ext2, nst, -, heq⟩ := connectedCallback_first env s L hsh hl
    rw [heq]
    cases env.typesetShadow with
    | none => exact ⟨rfl, by simp only [shadowContent_last, snapshot_clone_later]⟩
    | some c => exact ⟨rfl, by simp only [shadowContent_last, snapshot_materialise]⟩
  have hlt : ∀ n, Reach (connectedCallback env s).1.heap
      (connectedCallback env s).1.light n → n < s.heap.length := by
    intro n hn
    rw [hext, hlight] at hn
    exact reach_lt_of_read hn hl
  refine ⟨htc, hshadow.1, hshadow.2, ?_, ?_⟩
  · intro n hn hn2
    have h1 := hlt n hn
    have h2 := reach_within cs hn2 ws
    omega
  · intro es ids hes
    obtain ⟨F, hF⟩ := Option.isSome_iff_exists.1 hsome
    have key : snapshot (applyEdits es (connectedCallback env s).1.heap)
        (shadowChildren (connectedCallback env s).1) = some F := by
      refine snapshot_edits_outside (hss.trans hF) ws cs es ?_
      intro e he n r hen
      rcases hes e he n r hen with h1 | h1
      · have := hlt n h1
        omega
      · omega
    rw [hF, ← key]
    simp only [State.editLight, shadowContent, shadowChildren, hrid, hroot]

/-- C6 on the demo page: after the connection the text node of the light DOM
is overwritten and the paragraph is unlinked; the shadow root still holds the
typeset paragraph. -/
theorem C6_shadow_not_bound_to_light_dom_witness :
    Demo.fresh.shadow = none ∧
    innerHTML Demo.env Demo.fresh = some "<p>x</p>" ∧
    EditsOf Demo.connected.heap Demo.connected.light [.write 0 ⟨.text "y", []⟩] ∧
    shadowContent (Demo.connected.editLight [.write 0 ⟨.text "y", []⟩] [0])
      = shadowContent Demo.connected :=
  ⟨by decide, by decide,
    fun e he n r hen => by
      rw [List.mem_singleton.1 he] at hen
      cases hen
      exact Or.inl (Reach.inside (m := 1) (r := ⟨.element "p" [], [0]⟩)
        (by decide) (by decide) (Reach.here (by decide))),
    (C6_shadow_not_bound_to_light_dom Demo.env Demo.fresh "<p>x</p>"
      (by decide) (by decide)).2.2.2.2 [.write 0 ⟨.text "y", []⟩] [0]
      (fun e he n r hen => by
        rw [List.mem_singleton.1 he] at hen
        cases hen
        exact Or.inl (Reach.inside (m := 1) (r := ⟨.element "p" [], [0]⟩)
          (by decide) (by decide) (Reach.here (by decide))))⟩

/-- C7.  After a first connection with inner markup `M`, whatever the
collaborator did to the shadow tree, the retained template content is the
parse of `M`; what was placed in the shadow root, and what the collaborator
was invoked on, is a forest equal to it; no node of the template content is a
node of the shadow tree;
every change of the shadow tree (any sequence of overwrites of shadow-tree
nodes or of nodes created later, creations of nodes, and any new child list
for the shadow root) leaves the template content the parse of `M`; and every
such change of the template content leaves the content of the shadow root as
it was. -/
theorem C7_clone_is_independent_of_template (env : Env) (s : State) (M : String)
    (hsh : s.shadow = none) (hM : innerHTML env s = some M) :
    templateContent (connectedCallback env s).1 = some (env.parse M) ∧
    (env.typesetShadow = none →
      shadowContent (connectedCallback env s).1 = some (env.parse M)) ∧
    (∀ c, env.typesetShadow = some c →
      (connectedCallback env s).1.calls
        = s.calls ++ [⟨some s.roots.length, some (env.parse M)⟩]) ∧
    (∀ n, Reach (connectedCallback env s).1.heap
        (templateChildren (connectedCallback env s).1) n →
      ¬ Reach (connectedCallback env s).1.heap
          (shadowChildren (connectedCallback env s).1) n) ∧
    (∀ es ids,
      EditsOf (connectedCallback env s).1.heap
        (shadowChildren (connectedCallback env s).1) es →
      templateContent ((connectedCallback env s).1.editShadow es ids)
        = some (env.parse M)) ∧
    (∀ es ids,
      EditsOf (connectedCallback env s).1.heap
        (templateChildren (connectedCallback env s).1) es →
      shadowContent ((connectedCallback env s).1.editTemplate es ids)
        = shadowContent (connectedCallback env s).1) := by
  obtain ⟨L, hl, rfl⟩ := innerHTML_some hM
  obtain ⟨a, b, c, d, hab, hbc, hcd, hde, hdl, ⟨ext, hext⟩, hlight, wt, ct, ws, cs, htc,
    hts, hss, hsome, ⟨rid, root, hrid, hroot⟩, ⟨t, ht⟩⟩ :=
    first_connection_layout env s L hsh hl
  refine ⟨htc, ?_, ?_, ?_, ?_, ?_⟩
  · intro hc
    obtain ⟨ext2, nst, -, heq⟩ := connectedCallback_first env s L hsh hl
    rw [heq]
    simp only [hc, shadowContent_last, snapshot_clone_later]
  · intro c hc
    obtain ⟨ext2, nst, -, heq⟩ := connectedCallback_first env s L hsh hl
    rw [heq]
    simp only [hc]
  · intro n hn hn2
    have h1 := reach_within ct hn wt
    have h2 := reach_within cs hn2 ws
    omega
  · intro es ids hes
    have key : snapshot (applyEdits es (connectedCallback env s).1.heap)
        (templateChildren (connectedCallback env s).1)
          = some (env.parse (env.serialize L)) := by
      refine snapshot_edits_outside (hts.trans htc) wt ct es ?_
      intro e he n r hen
      rcases hes e he n r hen with h1 | h1
      · have := reach_within cs h1 ws
        omega
      · omega
    rw [← key]
    simp only [State.editShadow, templateContent, templateChildren, hrid, hroot, ht]
  · intro es ids hes
    obtain ⟨F, hF⟩ := Option.isSome_iff_exists.1 hsome
    have key : snapshot (applyEdits es (connectedCallback env s).1.heap)
        (shadowChildren (connectedCallback env s).1) = some F := by
      refine snapshot_edits_outside (hss.trans hF) ws cs es ?_
      intro e he n r hen
      rcases hes e he n r hen with h1 | h1
      · have := reach_within ct h1 wt
        omega
      · omega
    rw [hF, ← key]
    simp only [State.editTemplate, shadowContent, shadowChildren, hrid, hroot, ht]

/-- C7 on the demo page: the paragraph of the shadow tree (node 8) is emptied
and the shadow root gets an empty child list; the template content is still
the parse of the captured markup. -/
theorem C7_clone_is_independent_of_template_witness :
    Demo.fresh.shadow = none ∧
    innerHTML Demo.env Demo.fresh = some "<p>x</p>" ∧
    EditsOf Demo.connected.heap (shadowChildren Demo.connected)
      [.write 8 ⟨.element "p" [], []⟩] ∧
    templateContent (Demo.connected.editShadow [.write 8 ⟨.element "p" [], []⟩] [])
      = some (Demo.parse "<p>x</p>") :=
  ⟨by decide, by decide,
    fun e he n r hen => by
      rw [List.mem_singleton.1 he] at hen
      cases hen
      exact Or.inl (Reach.here (by decide)),
    (C7_clone_is_independent_of_template Demo.env Demo.fresh "<p>x</p>"
      (by decide) (by decide)).2.2.2.2.1 [.write 8 ⟨.element "p" [], []⟩] []
      (fun e he n r hen => by
        rw [List.mem_singleton.1 he] at hen
        cases hen
        exact Or.inl (Reach.here (by decide)))⟩

/-- C10.  For every element and every inner markup `M`, whether or not the
element already has a shadow root, a run of `connectedCallback` leaves the
element's child list, every node of its light DOM, the forest they form and
the inner markup as they were. -/
theorem C10_light_dom_is_copied_not_moved (env : Env) (s : State) (M : String)
    (hM : innerHTML env s = some M) :
    (connectedCallback env s).1.light = s.light ∧
    (∀ n, Reach s.heap s.light n → (connectedCallback env s).1.heap[n]? = s.heap[n]?) ∧
    snapshot (connectedCallback env s).1.heap (connectedCallback env s).1.light
      = snapshot s.heap s.light ∧
    innerHTML env (connectedCallback env s).1 = some M := by
  obtain ⟨L, hl, rfl⟩ := innerHTML_some hM
  obtain ⟨hlight, ext, hext⟩ := run_frame env s L hl
  have hsnap : snapshot (connectedCallback env s).1.heap (connectedCallback env s).1.light
      = snapshot s.heap s.light := by
    rw [hlight, hext, hl]
    exact snapshot_append hl ext
  refine ⟨hlight, ?_, hsnap, ?_⟩
  · intro n hn
    rw [hext, List.getElem?_append_left (reach_lt_of_snapshot hl hn)]
  · unfold innerHTML
    rw [hsnap, hl]
    rfl

/-- C10 on the demo page: after the connection the element still has its
paragraph. -/
theorem C10_light_dom_is_copied_not_moved_witness :
    innerHTML Demo.env Demo.fresh = some "<p>x</p>" ∧
    (connectedCallback Demo.env Demo.fresh).1.light = [1] ∧
    innerHTML Demo.env (connectedCallback Demo.env Demo.fresh).1 = some "<p>x</p>" :=
  ⟨by decide,
    (C10_light_dom_is_copied_not_moved Demo.env Demo.fresh "<p>x</p>" (by decide)).1,
    (C10_light_dom_is_copied_not_moved Demo.env Demo.fresh "<p>x</p>" (by decide)).2.2.2⟩

end CustomElement
